import Mathlib

/-!
Verification of the task-dashboard repository against its specification.

The repository contains three variants of the task application:
* `TaskApp`    — the create-react-app variant (`src/App.js`, given as
  `unnamed/part_009`): numeric `Date.now()` ids, `localStorage` persistence.
* `DashboardApp` — the uuid variant (`unnamed/part_002`) with its
  `TaskForm` (`unnamed/part_005`, first half): string ids, statistics,
  `updatedAt` stamps, form validation.
* `FlowApp`    — the CDN sample (`unnamed/part_005`, second half): numeric
  ids, a `status` string instead of a `completed` flag.

Every definition is a direct shallow embedding of the corresponding
JavaScript function; JavaScript numbers are embedded as `Nat`/`ℚ`,
strings as `String`, objects as structures, and `Array.prototype.map` /
`filter` as `List.map` / `List.filter`.
-/

/-- Model of `Math.round` on a non-negative rational: round half up,
`Math.round(x) = ⌊x + 1/2⌋` (JavaScript rounds halves toward `+∞`). -/
def mathRound (q : ℚ) : ℤ := ⌊q + 1/2⌋

/-- Model of `String.prototype.trim`: drop leading and trailing
whitespace. Defined over the character list so that the kernel can
evaluate it on concrete strings. -/
def jsTrim (s : String) : String :=
  ⟨((s.data.dropWhile Char.isWhitespace).reverse.dropWhile Char.isWhitespace).reverse⟩


/-!
Model of the persistence layer of the create-react-app variant
(`unnamed/part_009`): `localStorage.setItem('tasks', JSON.stringify(tasks))`
after every change, and on mount
`const savedTasks = localStorage.getItem('tasks');
if (savedTasks) \x7b setTasks(JSON.parse(savedTasks)); \x7d`.

`JSON.stringify` / `JSON.parse` are platform builtins, not repository
code. Modelled from the spec: section 6 fixes the serialization contract —
"the full task collection encoded as a sequence of records with fields
`id, title, description, dueDate, completed, createdAt`" with the exact
encoding an implementation choice that must round-trip. The model below
implements the canonical `JSON.stringify` encoding of the task array
(object with the six keys in insertion order, strings escaped) and a
parser for exactly that format which fails on any input outside it, the
way `JSON.parse` throws a `SyntaxError` on malformed input.
-/

namespace Json

/-- Lower-case hex digit, as emitted by the `\uXXXX` escapes of
`JSON.stringify`. -/
def hexDigit (n : Nat) : Char :=
  if n < 10 then Char.ofNat (48 + n) else Char.ofNat (87 + n)

/-- Value of a hex digit accepted by a `\uXXXX` escape. -/
def hexVal (c : Char) : Option Nat :=
  if '0' ≤ c ∧ c ≤ '9' then some (c.toNat - 48)
  else if 'a' ≤ c ∧ c ≤ 'f' then some (c.toNat - 87)
  else if 'A' ≤ c ∧ c ≤ 'F' then some (c.toNat - 55)
  else none

/-- String escaping of `JSON.stringify`: quote and backslash get a
backslash escape, control characters a `\u00XX` escape, everything else
is emitted verbatim. -/
def escapeChar (c : Char) : List Char :=
  if c = '"' then ['\\', '"']
  else if c = '\\' then ['\\', '\\']
  else if c.toNat < 32 then
    ['\\', 'u', '0', '0', hexDigit (c.toNat / 16), hexDigit (c.toNat % 16)]
  else [c]

/-- Escape a whole string, character by character. -/
def escapeString : List Char → List Char
  | [] => []
  | c :: cs => escapeChar c ++ escapeString cs

/-- Decimal digit character. -/
def digitChar (n : Nat) : Char := Char.ofNat (48 + n)

/-- Decimal digits of a number, most significant first, with explicit
fuel so that the kernel can evaluate it. -/
def toDigitsAux : Nat → Nat → List Char
  | 0, _ => []
  | fuel + 1, n =>
    if n < 10 then [digitChar n]
    else toDigitsAux fuel (n / 10) ++ [digitChar (n % 10)]

/-- Decimal representation of a natural number, the way `JSON.stringify`
prints a non-negative integer. -/
def toDigits (n : Nat) : List Char := toDigitsAux (n + 1) n

/-- Decimal digit test. -/
def isDigit (c : Char) : Bool := '0' ≤ c ∧ c ≤ '9'

/-- Consume a maximal run of decimal digits, accumulating their value. -/
def parseDigits : Nat → List Char → Nat × List Char
  | acc, [] => (acc, [])
  | acc, c :: rest =>
    if isDigit c then parseDigits (acc * 10 + (c.toNat - 48)) rest
    else (acc, c :: rest)

/-- Parse a JSON non-negative integer literal: at least one digit. -/
def parseNumber : List Char → Option (Nat × List Char)
  | [] => none
  | c :: rest =>
    if isDigit c then some (parseDigits (c.toNat - 48) rest) else none

/-- Parse the body of a JSON string literal after the opening quote:
stops at the closing quote, handles the backslash escapes accepted by
`JSON.parse` (including `\uXXXX` for code points below the surrogate
range). -/
def parseStringBody : List Char → Option (List Char × List Char)
  | [] => none
  | c :: rest =>
    if c = '"' then some ([], rest)
    else if c = '\\' then
      match rest with
      | [] => none
      | e :: rest2 =>
        if e = '"' then (parseStringBody rest2).map (fun p => ('"' :: p.1, p.2))
        else if e = '\\' then (parseStringBody rest2).map (fun p => ('\\' :: p.1, p.2))
        else if e = '/' then (parseStringBody rest2).map (fun p => ('/' :: p.1, p.2))
        else if e = 'b' then (parseStringBody rest2).map (fun p => (Char.ofNat 8 :: p.1, p.2))
        else if e = 'f' then (parseStringBody rest2).map (fun p => (Char.ofNat 12 :: p.1, p.2))
        else if e = 'n' then (parseStringBody rest2).map (fun p => ('\n' :: p.1, p.2))
        else if e = 'r' then (parseStringBody rest2).map (fun p => (Char.ofNat 13 :: p.1, p.2))
        else if e = 't' then (parseStringBody rest2).map (fun p => ('\t' :: p.1, p.2))
        else if e = 'u' then
          match rest2 with
          | a :: b :: c2 :: d :: rest3 =>
            match hexVal a, hexVal b, hexVal c2, hexVal d with
            | some va, some vb, some vc, some vd =>
              let n := va * 4096 + vb * 256 + vc * 16 + vd
              if n < 55296 then
                (parseStringBody rest3).map (fun p => (Char.ofNat n :: p.1, p.2))
              else none
            | _, _, _, _ => none
          | _ => none
        else none
    else (parseStringBody rest).map (fun p => (c :: p.1, p.2))

/-- A quoted, escaped JSON string literal for `s`. -/
def quoteChars (s : String) : List Char := '"' :: escapeString s.data ++ ['"']

/-- Expect the exact literal `cs` as a prefix of the input. -/
def parseLit : List Char → List Char → Option (List Char)
  | [], l => some l
  | _ :: _, [] => none
  | c :: cs, d :: l => if d = c then parseLit cs l else none

/-- Parse a complete JSON string literal. -/
def parseQuotedString : List Char → Option (String × List Char)
  | [] => none
  | c :: rest =>
    if c = '"' then (parseStringBody rest).map (fun p => (⟨p.1⟩, p.2)) else none

/-- Parse the JSON literals `true` / `false`. -/
def parseBool (l : List Char) : Option (Bool × List Char) :=
  match parseLit "true".data l with
  | some rest => some (true, rest)
  | none =>
    match parseLit "false".data l with
    | some rest => some (false, rest)
    | none => none

/-- Opening brace character, written via its code. -/
def lbrace : Char := '\x7b'

/-- Closing brace character, written via its code. -/
def rbrace : Char := '\x7d'

end Json

namespace TaskApp

/-- Task record of the create-react-app variant (`unnamed/part_009`):
`{ id, title, description, dueDate, completed, createdAt }`, where `id`
is the number `Date.now()` and `createdAt` is an ISO timestamp string. -/
structure Task where
  id : Nat
  title : String
  description : String
  dueDate : String
  completed : Bool
  createdAt : String
deriving DecidableEq

/-- Input submitted by the form: `{ title, description, dueDate }`. -/
structure TaskInput where
  title : String
  description : String
  dueDate : String
deriving DecidableEq

/-- Embedding of `addTask` (`unnamed/part_009`, lines 33–42):
`const newTask = { id: Date.now(), ...task, completed: false, createdAt: new Date().toISOString() };
setTasks([...tasks, newTask]);`
The current time `Date.now()` and `new Date().toISOString()` are passed
as the explicit arguments `now` and `nowIso`. -/
def addTask (input : TaskInput) (now : Nat) (nowIso : String)
    (tasks : List Task) : List Task :=
  tasks ++ [{ id := now, title := input.title, description := input.description,
              dueDate := input.dueDate, completed := false, createdAt := nowIso }]

/-- Embedding of `updateTask` (`unnamed/part_009`, lines 48–54):
`setTasks(tasks.map(task => task.id === updatedTask.id ? { ...task, ...updatedTask } : task));`
`updatedTask` carries all six fields (the form submits `{ ...task, ...formData }`),
so the spread overrides every field. -/
def updateTask (updatedTask : Task) (tasks : List Task) : List Task :=
  tasks.map (fun task =>
    if task.id = updatedTask.id then
      { task with
          id := updatedTask.id
          title := updatedTask.title
          description := updatedTask.description
          dueDate := updatedTask.dueDate
          completed := updatedTask.completed
          createdAt := updatedTask.createdAt }
    else task)

/-- Embedding of `toggleComplete` (`unnamed/part_009`, lines 60–64):
`setTasks(tasks.map(task => task.id === id ? { ...task, completed: !task.completed } : task));` -/
def toggleComplete (id : Nat) (tasks : List Task) : List Task :=
  tasks.map (fun task =>
    if task.id = id then { task with completed := !task.completed } else task)

/-- Embedding of `deleteTask` (`unnamed/part_009`, lines 70–74):
`if (window.confirm(...)) { setTasks(tasks.filter(task => task.id !== id)); }`
The result of `window.confirm` is the explicit argument `confirmed`. -/
def deleteTask (confirmed : Bool) (id : Nat) (tasks : List Task) : List Task :=
  if confirmed then tasks.filter (fun task => task.id ≠ id) else tasks

end TaskApp


namespace TaskApp

open Json

/-- Serialization of one task, exactly the canonical `JSON.stringify`
output for the object literal built by `addTask`: the six keys in
insertion order `id, title, description, dueDate, completed, createdAt`,
no whitespace. -/
def serializeTask (t : Task) : List Char :=
  [lbrace] ++ "\"id\":".data ++ toDigits t.id ++
  ",\"title\":".data ++ quoteChars t.title ++
  ",\"description\":".data ++ quoteChars t.description ++
  ",\"dueDate\":".data ++ quoteChars t.dueDate ++
  ",\"completed\":".data ++ (if t.completed then "true".data else "false".data) ++
  ",\"createdAt\":".data ++ quoteChars t.createdAt ++ [rbrace]

/-- Comma-separated serializations of the tasks. -/
def serializeTasksData : List Task → List Char
  | [] => []
  | [t] => serializeTask t
  | t :: ts => serializeTask t ++ ',' :: serializeTasksData ts

/-- Model of `JSON.stringify(tasks)` in the save effect
(`unnamed/part_009`, lines 25–27): the task array in canonical form. -/
def serializeTasks (ts : List Task) : String := ⟨'[' :: serializeTasksData ts ++ [']']⟩

/-- Parse one serialized task object. -/
def parseTask (l : List Char) : Option (Task × List Char) := do
  let l ← parseLit ([lbrace] ++ "\"id\":".data) l
  let (id, l) ← parseNumber l
  let l ← parseLit ",\"title\":".data l
  let (title, l) ← parseQuotedString l
  let l ← parseLit ",\"description\":".data l
  let (description, l) ← parseQuotedString l
  let l ← parseLit ",\"dueDate\":".data l
  let (dueDate, l) ← parseQuotedString l
  let l ← parseLit ",\"completed\":".data l
  let (completed, l) ← parseBool l
  let l ← parseLit ",\"createdAt\":".data l
  let (createdAt, l) ← parseQuotedString l
  let l ← parseLit [rbrace] l
  some (⟨id, title, description, dueDate, completed, createdAt⟩, l)

/-- Parse the remaining elements of the task array: either the closing
bracket, or a comma followed by another task. The fuel argument bounds
the recursion; one unit is spent per task. -/
def parseTasksRest : Nat → List Char → Option (List Task × List Char)
  | fuel, l =>
    match l with
    | [] => none
    | c :: l2 =>
      if c = ']' then some ([], l2)
      else if c = ',' then
        match fuel with
        | 0 => none
        | f + 1 =>
          (parseTask l2).bind (fun p =>
            (parseTasksRest f p.2).map (fun q => (p.1 :: q.1, q.2)))
      else none

/-- Model of `JSON.parse` composed with reading the result as the task
collection: accepts exactly the canonical serialized form of a task
array and fails (`none`, the model of a thrown `SyntaxError`) on
anything else. -/
def deserializeTasks (s : String) : Option (List Task) :=
  match s.data with
  | [] => none
  | c :: rest =>
    if c = '[' then
      match rest with
      | [] => none
      | d :: rest2 =>
        if d = ']' then (if rest2 = [] then some [] else none)
        else
          (parseTask rest).bind (fun p =>
            (parseTasksRest p.2.length p.2).bind (fun q =>
              if q.2 = [] then some (p.1 :: q.1) else none))
    else none

/-- The stream of the second and later array elements, each preceded by
its separating comma. -/
def restStream (ts : List Task) : List Char :=
  ts.foldr (fun t acc => ',' :: serializeTask t ++ acc) []

/-- Model of the `localStorage` adapter: a key-to-value map. -/
def getItem (key : String) (store : String → Option String) : Option String :=
  store key

/-- Model of `localStorage.setItem`. -/
def setItem (key value : String) (store : String → Option String) :
    String → Option String :=
  fun k => if k = key then some value else store k

/-- Embedding of the load effect (`unnamed/part_009`, lines 17–22):
`const savedTasks = localStorage.getItem('tasks');
if (savedTasks) \x7b setTasks(JSON.parse(savedTasks)); \x7d`
The `tasks` state starts as `[]`; a `null` or empty (falsy) stored value
leaves it empty; otherwise `JSON.parse` runs with no surrounding
`try`/`catch`, so a deserialization failure propagates as a thrown
error, embedded as `Except.error`. -/
def loadTasks (savedTasks : Option String) : Except String (List Task) :=
  match savedTasks with
  | none => .ok []
  | some s =>
    if s = "" then .ok []
    else
      match deserializeTasks s with
      | some tasks => .ok tasks
      | none => .error "SyntaxError: JSON.parse"

end TaskApp

namespace DashboardApp

/-- Task record of the uuid variant (`unnamed/part_002`): string `id`
(uuidv4), plus an `updatedAt` stamp that is absent until the first edit. -/
structure Task where
  id : String
  title : String
  description : String
  dueDate : String
  completed : Bool
  createdAt : String
  updatedAt : Option String
deriving DecidableEq

/-- Statistics record `{ total, completed, pending, completionRate }`. -/
structure Stats where
  total : Nat
  completed : Nat
  pending : Nat
  completionRate : ℤ
deriving DecidableEq

/-- Embedding of `taskStats` (`unnamed/part_002`, lines 96–103):
`const total = tasks.length;
const completed = tasks.filter(task => task.completed).length;
const pending = total - completed;
const completionRate = total > 0 ? Math.round((completed / total) * 100) : 0;` -/
def taskStats (tasks : List Task) : Stats :=
  let total := tasks.length
  let completed := (tasks.filter (fun task => task.completed)).length
  let pending := total - completed
  let completionRate : ℤ :=
    if 0 < total then mathRound (((completed : ℚ) / (total : ℚ)) * 100) else 0
  { total := total, completed := completed, pending := pending,
    completionRate := completionRate }

/-- Form data `{ title, description, dueDate }` of the `TaskForm`
component (`unnamed/part_005`). -/
structure FormData where
  title : String
  description : String
  dueDate : String
deriving DecidableEq

/-- Embedding of `handleAddTask` (`unnamed/part_002`, lines 115–127):
`const newTask = { id: uuidv4(), ...taskData, completed: false, createdAt: new Date().toISOString() };
setTasks(prevTasks => [...prevTasks, newTask]);`
The fresh uuid and the current ISO time are the arguments `newId`, `nowIso`. -/
def handleAddTask (taskData : FormData) (newId nowIso : String)
    (tasks : List Task) : List Task :=
  tasks ++ [{ id := newId, title := taskData.title,
              description := taskData.description, dueDate := taskData.dueDate,
              completed := false, createdAt := nowIso, updatedAt := none }]

/-- Embedding of `handleEditTask` (`unnamed/part_002`, lines 135–148):
`setTasks(prevTasks => prevTasks.map(task => task.id === editingTask.id
  ? { ...task, ...taskData, updatedAt: new Date().toISOString() } : task));`
`taskData` holds `{ title, description, dueDate }`; the editing task's id
and the current time are the arguments `editingId`, `nowIso`. -/
def handleEditTask (editingId : String) (taskData : FormData) (nowIso : String)
    (tasks : List Task) : List Task :=
  tasks.map (fun task =>
    if task.id = editingId then
      { task with
          title := taskData.title
          description := taskData.description
          dueDate := taskData.dueDate
          updatedAt := some nowIso }
    else task)

/-- Embedding of `handleToggleComplete` (`unnamed/part_002`, lines 156–167):
`setTasks(prevTasks => prevTasks.map(task => task.id === taskId
  ? { ...task, completed: !task.completed, updatedAt: new Date().toISOString() } : task));` -/
def handleToggleComplete (taskId : String) (nowIso : String)
    (tasks : List Task) : List Task :=
  tasks.map (fun task =>
    if task.id = taskId then
      { task with completed := !task.completed, updatedAt := some nowIso }
    else task)

/-- Embedding of `handleDeleteTask` (`unnamed/part_002`, lines 175–180):
`setTasks(prevTasks => prevTasks.filter(task => task.id !== taskId));` -/
def handleDeleteTask (taskId : String) (tasks : List Task) : List Task :=
  tasks.filter (fun task => task.id ≠ taskId)

/-- Embedding of `validateField` (`unnamed/part_005`, lines 86–115): the `switch` on
the field name; returns the error message or the empty string.
JavaScript string falsiness (`!value.trim()`, `!value`) is emptiness. -/
def validateField (name value : String) : String :=
  if name = "title" then
    if jsTrim value = "" then "Title is required"
    else if (jsTrim value).length < 3 then "Title must be at least 3 characters"
    else if (jsTrim value).length > 100 then "Title must be less than 100 characters"
    else ""
  else if name = "dueDate" then
    if value = "" then "Due date is required" else ""
  else if name = "description" then
    if value.length > 500 then "Description must be less than 500 characters"
    else ""
  else ""

/-- Lookup `formData[key]` for the three form fields. -/
def formGet (fd : FormData) (key : String) : String :=
  if key = "title" then fd.title
  else if key = "description" then fd.description
  else fd.dueDate

/-- Embedding of `validateForm` (`unnamed/part_005`, lines 122–131):
`Object.keys(formData).forEach(key => { const error = validateField(key, formData[key]);
 if (error) { newErrors[key] = error; } });`
`Object.keys(formData)` is `["title", "description", "dueDate"]` (insertion
order); the accumulated error object is embedded as an association list. -/
def validateForm (fd : FormData) : List (String × String) :=
  ["title", "description", "dueDate"].foldl
    (fun newErrors key =>
      let error := validateField key (formGet fd key)
      if error ≠ "" then newErrors ++ [(key, error)] else newErrors) []

/-- Embedding of `handleSubmit` (`unnamed/part_005`, lines 188–210) composed with
`handleFormSubmit` (`unnamed/part_002`, lines 222–228): when
`Object.keys(formErrors).length === 0`, submit the trimmed form data to
`handleEditTask` (edit mode) or `handleAddTask` (add mode); otherwise the
task collection is untouched. -/
def submitForm (fd : FormData) (editing : Option String) (newId nowIso : String)
    (tasks : List Task) : List Task :=
  let formErrors := validateForm fd
  if formErrors.length = 0 then
    let taskData : FormData :=
      { title := jsTrim fd.title, description := jsTrim fd.description,
        dueDate := fd.dueDate }
    match editing with
    | some editingId => handleEditTask editingId taskData nowIso tasks
    | none => handleAddTask taskData newId nowIso tasks
  else tasks

end DashboardApp

namespace FlowApp

/-- Task record of the CDN sample (`unnamed/part_005`, second half):
numeric ids and a `status` string (`"pending"` / `"completed"`). -/
structure Task where
  id : Nat
  title : String
  description : String
  dueDate : String
  status : String
deriving DecidableEq

/-- Embedding of `stats` (`unnamed/part_005`, lines 363–369):
`const total = tasks.length;
const completed = tasks.filter((t) => t.status === "completed").length;
const pending = total - completed;
const completionRate = total === 0 ? 0 : Math.round((completed / total) * 100);` -/
def stats (tasks : List Task) : DashboardApp.Stats :=
  let total := tasks.length
  let completed := (tasks.filter (fun t => t.status = "completed")).length
  let pending := total - completed
  let completionRate : ℤ :=
    if total = 0 then 0 else mathRound (((completed : ℚ) / (total : ℚ)) * 100)
  { total := total, completed := completed, pending := pending,
    completionRate := completionRate }

end FlowApp

namespace SetupTests

/-- Embedding of `validate` of the duplicate sample `TaskForm` embedded in
`src/setupTests.js` (lines 162–179): requires a non-blank title, a
non-blank description and a due date, collecting an error entry for each
failing field. -/
def validate (fd : DashboardApp.FormData) : List (String × String) :=
  let e1 : List (String × String) :=
    if jsTrim fd.title = "" then [("title", "Title is required")] else []
  let e2 : List (String × String) :=
    if jsTrim fd.description = "" then [("description", "Description is required")] else []
  let e3 : List (String × String) :=
    if fd.dueDate = "" then [("dueDate", "Due date is required")] else []
  e1 ++ e2 ++ e3

end SetupTests

/-!
Helper lemmas: the JSON codec round-trips. None of these are claim
theorems; the claim theorems build on them.
-/

namespace Json

theorem charOfNat_toNat (c : Char) (h : c.toNat < 55296) : Char.ofNat c.toNat = c := by
  have hv : c.toNat.isValidChar := Or.inl h
  apply Char.ext
  simp [Char.ofNat, hv, Char.ofNatAux]
  rfl

theorem hexVal_hexDigit (n : Nat) (h : n < 16) : hexVal (hexDigit n) = some n := by
  interval_cases n <;> decide

theorem hexVal_zero : hexVal '0' = some 0 := by decide

theorem parseStringBody_escape (s : List Char) :
    ∀ rest : List Char,
      parseStringBody (escapeString s ++ '"' :: rest) = some (s, rest) := by
  induction s with
  | nil =>
    intro rest
    show parseStringBody ('"' :: rest) = _
    rw [parseStringBody.eq_def]
    simp
  | cons c cs ih =>
    intro rest
    show parseStringBody (escapeChar c ++ escapeString cs ++ '"' :: rest) = _
    by_cases h1 : c = '"'
    · subst h1
      show parseStringBody ('\\' :: '"' :: (escapeString cs ++ '"' :: rest)) = _
      rw [parseStringBody.eq_def]
      simp [ih]
    · by_cases h2 : c = '\\'
      · subst h2
        show parseStringBody ('\\' :: '\\' :: (escapeString cs ++ '"' :: rest)) = _
        rw [parseStringBody.eq_def]
        simp [ih]
      · by_cases h3 : c.toNat < 32
        · have hlt : c.toNat < 55296 := by omega
          have h16a : c.toNat / 16 < 16 := by omega
          have h16b : c.toNat % 16 < 16 := by omega
          have hesc : escapeChar c =
              ['\\', 'u', '0', '0', hexDigit (c.toNat / 16), hexDigit (c.toNat % 16)] := by
            simp [escapeChar, h1, h2, h3]
          rw [hesc]
          show parseStringBody ('\\' :: 'u' :: '0' :: '0' :: hexDigit (c.toNat / 16) ::
            hexDigit (c.toNat % 16) :: (escapeString cs ++ '"' :: rest)) = _
          rw [parseStringBody.eq_def]
          have hmod : c.toNat / 16 * 16 + c.toNat % 16 = c.toNat := by omega
          simp [hexVal_hexDigit _ h16a, hexVal_hexDigit _ h16b, hexVal_zero, hmod, hlt,
            charOfNat_toNat c hlt, ih]
        · have hesc : escapeChar c = [c] := by simp [escapeChar, h1, h2, h3]
          rw [hesc]
          show parseStringBody (c :: (escapeString cs ++ '"' :: rest)) = _
          rw [parseStringBody.eq_def]
          simp [h1, h2, ih]

theorem isDigit_digitChar (n : Nat) (h : n < 10) :
    isDigit (digitChar n) = true ∧ (digitChar n).toNat - 48 = n := by
  interval_cases n <;> exact ⟨by decide, by decide⟩

theorem toDigitsAux_fuel (n : Nat) :
    ∀ f1 f2, n < f1 → n < f2 → toDigitsAux f1 n = toDigitsAux f2 n := by
  induction n using Nat.strong_induction_on with
  | _ n ih =>
    intro f1 f2 h1 h2
    cases f1 with
    | zero => omega
    | succ a =>
      cases f2 with
      | zero => omega
      | succ b =>
        by_cases h : n < 10
        · simp [toDigitsAux, h]
        · have hd : n / 10 < n := Nat.div_lt_self (by omega) (by omega)
          simp only [toDigitsAux, h, if_false]
          rw [ih (n / 10) hd a b (by omega) (by omega)]

theorem toDigits_eq (n : Nat) :
    toDigits n = if n < 10 then [digitChar n]
      else toDigits (n / 10) ++ [digitChar (n % 10)] := by
  by_cases h : n < 10
  · simp [toDigits, toDigitsAux, h]
  · have hdlt : n / 10 < n := Nat.div_lt_self (by omega) (by omega)
    have step : toDigitsAux (n + 1) n = toDigitsAux n (n / 10) ++ [digitChar (n % 10)] := by
      simp only [toDigitsAux, h, if_false]
    rw [toDigits, step, toDigitsAux_fuel (n / 10) n (n / 10 + 1) hdlt (by omega),
      if_neg h, toDigits]

theorem parseDigits_append (n : Nat) :
    ∀ acc rest, parseDigits acc (toDigits n ++ rest) =
      parseDigits (acc * 10 ^ (toDigits n).length + n) rest := by
  induction n using Nat.strong_induction_on with
  | _ n ih =>
    intro acc rest
    by_cases h : n < 10
    · rw [toDigits_eq]
      simp only [h, if_pos]
      simp [parseDigits, (isDigit_digitChar n h).1, (isDigit_digitChar n h).2]
    · rw [toDigits_eq]
      simp only [h, if_neg, if_false]
      have h10 : n / 10 < n := Nat.div_lt_self (by omega) (by omega)
      rw [List.append_assoc, ih (n / 10) h10]
      have hd : isDigit (digitChar (n % 10)) = true := (isDigit_digitChar _ (by omega)).1
      have hv : (digitChar (n % 10)).toNat - 48 = n % 10 := (isDigit_digitChar _ (by omega)).2
      simp only [List.cons_append, List.nil_append, parseDigits, hd, if_pos, hv]
      congr 1
      · simp only [List.length_append, List.length_cons, List.length_nil]
        ring_nf
        omega

theorem parseDigits_stop (acc : Nat) (l : List Char)
    (h : ∀ c, l.head? = some c → isDigit c = false) :
    parseDigits acc l = (acc, l) := by
  cases l with
  | nil => rfl
  | cons c rest => simp [parseDigits, h c rfl]

theorem toDigits_head (n : Nat) :
    ∃ d t, toDigits n = d :: t ∧ isDigit d = true := by
  induction n using Nat.strong_induction_on with
  | _ n ih =>
    by_cases h : n < 10
    · exact ⟨digitChar n, [], by rw [toDigits_eq]; simp [h], (isDigit_digitChar n h).1⟩
    · obtain ⟨d, t, hdt, hd⟩ := ih (n / 10) (Nat.div_lt_self (by omega) (by omega))
      exact ⟨d, t ++ [digitChar (n % 10)], by rw [toDigits_eq]; simp [h, hdt], hd⟩

theorem parseNumber_toDigits (n : Nat) (rest : List Char)
    (h : ∀ c, rest.head? = some c → isDigit c = false) :
    parseNumber (toDigits n ++ rest) = some (n, rest) := by
  obtain ⟨d, t, hdt, hd⟩ := toDigits_head n
  have key : parseDigits 0 (toDigits n ++ rest) = (n, rest) := by
    rw [parseDigits_append, parseDigits_stop _ _ h]
    simp
  rw [hdt] at key ⊢
  simp only [List.cons_append, parseNumber, hd, if_pos]
  simp only [List.cons_append, parseDigits, hd, if_pos] at key
  simpa using key

theorem parseLit_self (cs : List Char) : ∀ l, parseLit cs (cs ++ l) = some l := by
  induction cs with
  | nil => intro l; rfl
  | cons c cs ih => intro l; simp [parseLit, ih]

theorem parseQuotedString_quoteChars (s : String) (rest : List Char) :
    parseQuotedString (quoteChars s ++ rest) = some (s, rest) := by
  simp only [quoteChars, List.cons_append, List.append_assoc, List.cons_append,
    parseQuotedString]
  rw [if_pos trivial]
  simp [parseStringBody_escape]

theorem parseBool_true (rest : List Char) :
    parseBool ('t' :: 'r' :: 'u' :: 'e' :: rest) = some (true, rest) := by
  simp [parseBool, parseLit]

theorem parseBool_false (rest : List Char) :
    parseBool ('f' :: 'a' :: 'l' :: 's' :: 'e' :: rest) = some (false, rest) := by
  simp [parseBool, parseLit]

end Json

namespace TaskApp

open Json

set_option maxHeartbeats 1000000 in
theorem parseTask_serializeTask (t : Task) (rest : List Char) :
    parseTask (serializeTask t ++ rest) = some (t, rest) := by
  obtain ⟨tid, ttl, tds, tdd, tc, tca⟩ := t
  cases tc <;>
    simp [parseTask, serializeTask, lbrace, rbrace, Option.bind_eq_bind,
      Option.some_bind, parseLit, parseNumber_toDigits, parseQuotedString_quoteChars,
      parseBool_true, parseBool_false, isDigit]

theorem serializeTasksData_eq (t : Task) (ts : List Task) :
    serializeTasksData (t :: ts) = serializeTask t ++ restStream ts := by
  induction ts generalizing t with
  | nil => simp [serializeTasksData, restStream]
  | cons u us ih =>
    simp only [serializeTasksData, restStream, List.foldr_cons, ih u]
    simp [restStream]

theorem restStream_length (ts : List Task) : ts.length ≤ (restStream ts).length := by
  induction ts with
  | nil => simp [restStream]
  | cons t ts ih => simp [restStream] at ih ⊢; omega

theorem serializeTask_head (t : Task) :
    ∃ body, serializeTask t = lbrace :: body :=
  ⟨"\"id\":".data ++ toDigits t.id ++ ",\"title\":".data ++ quoteChars t.title ++
    ",\"description\":".data ++ quoteChars t.description ++
    ",\"dueDate\":".data ++ quoteChars t.dueDate ++
    ",\"completed\":".data ++ (if t.completed then "true".data else "false".data) ++
    ",\"createdAt\":".data ++ quoteChars t.createdAt ++ [rbrace], by simp [serializeTask]⟩

theorem parseTasksRest_restStream (ts : List Task) :
    ∀ (fuel : Nat) (tail : List Char), ts.length ≤ fuel →
      parseTasksRest fuel (restStream ts ++ ']' :: tail) = some (ts, tail) := by
  induction ts with
  | nil =>
    intro fuel tail _
    have hr : restStream [] ++ ']' :: tail = ']' :: tail := by simp [restStream]
    rw [hr, parseTasksRest.eq_def]
    simp
  | cons t ts ih =>
    intro fuel tail h
    cases fuel with
    | zero => simp at h
    | succ f =>
      have hr : restStream (t :: ts) ++ ']' :: tail =
          ',' :: (serializeTask t ++ (restStream ts ++ ']' :: tail)) := by
        simp [restStream]
      rw [hr, parseTasksRest.eq_def]
      dsimp only
      rw [if_neg (by decide), if_pos rfl]
      rw [parseTask_serializeTask t]
      dsimp only [Option.bind_eq_bind, Option.some_bind]
      rw [ih f tail (by simpa using h)]
      rfl

theorem deserializeTasks_serializeTasks (ts : List Task) :
    deserializeTasks (serializeTasks ts) = some ts := by
  cases ts with
  | nil => rfl
  | cons t ts =>
    obtain ⟨body, hbody⟩ := serializeTask_head t
    have hdata : (serializeTasks (t :: ts)).data =
        '[' :: (lbrace :: (body ++ (restStream ts ++ [']']))) := by
      show '[' :: serializeTasksData (t :: ts) ++ [']'] = _
      rw [serializeTasksData_eq, hbody]
      simp
    rw [deserializeTasks, hdata]
    dsimp only
    rw [if_pos rfl, if_neg (by decide)]
    have hstream : lbrace :: (body ++ (restStream ts ++ [']'])) =
        serializeTask t ++ (restStream ts ++ [']']) := by
      rw [hbody]
      rfl
    rw [hstream, parseTask_serializeTask t]
    simp only [Option.bind_eq_bind, Option.some_bind]
    rw [parseTasksRest_restStream ts _ [] (le_trans (restStream_length ts) (by simp))]
    simp

theorem serializeTasks_ne_empty (ts : List Task) : serializeTasks ts ≠ "" := by
  intro h
  have := congrArg String.data h
  simp [serializeTasks] at this

end TaskApp

/-!
Claim theorems. Each theorem settles one claim of the specification
against the embedded code.
-/

/-- **C1**: for every task collection, the statistics projection returns
`total` equal to the number of tasks, `completed` equal to the number of
tasks whose completed flag is true, `pending = total - completed`, and
`completionRate = round(100*completed/total)` with round-half-up, or `0`
when `total = 0`. Proved for both cited projections: `taskStats`
(`unnamed/part_002`) and `stats` (`unnamed/part_005`, where the
completed flag is `status === "completed"`). -/
theorem c1_stats_projection :
    (∀ tasks : List DashboardApp.Task,
      DashboardApp.taskStats tasks =
        { total := tasks.length
          completed := tasks.countP (fun t => t.completed)
          pending := tasks.length - tasks.countP (fun t => t.completed)
          completionRate :=
            if tasks.length = 0 then 0
            else mathRound (100 * (tasks.countP (fun t => t.completed) : ℚ) /
              (tasks.length : ℚ)) }) ∧
    (∀ tasks : List FlowApp.Task,
      FlowApp.stats tasks =
        { total := tasks.length
          completed := tasks.countP (fun t => t.status = "completed")
          pending := tasks.length - tasks.countP (fun t => t.status = "completed")
          completionRate :=
            if tasks.length = 0 then 0
            else mathRound (100 * (tasks.countP (fun t => t.status = "completed") : ℚ) /
              (tasks.length : ℚ)) }) := by
  constructor
  · intro tasks
    unfold DashboardApp.taskStats
    simp only [List.countP_eq_length_filter]
    rcases Nat.eq_zero_or_pos tasks.length with h | h
    · simp [h]
    · have h0 : ¬ tasks.length = 0 := by omega
      simp only [h, if_pos, h0, if_neg, if_false]
      congr 1
      ring_nf
  · intro tasks
    unfold FlowApp.stats
    simp only [List.countP_eq_length_filter]
    rcases Nat.eq_zero_or_pos tasks.length with h | h
    · simp [h]
    · have h0 : ¬ tasks.length = 0 := by omega
      simp only [h, if_pos, h0, if_neg, if_false]
      congr 1
      ring_nf

/-- **C2** counterexample: the claim says every created task gets an id
distinct from every id ever assigned in the session. `addTask` assigns
`id = Date.now()` (the current millisecond); two tasks created at the
same millisecond (`now = 5`) receive equal ids — the ids assigned in
this two-create session are `[5, 5]`, not distinct. -/
theorem c2_counterexample :
    ((TaskApp.addTask ⟨"Write report", "Q1 summary", "2026-03-01"⟩ 5 "T1"
        (TaskApp.addTask ⟨"Buy milk", "", "2026-01-01"⟩ 5 "T0" [])).map
      (fun t => t.id)) = [5, 5] ∧
    ¬ ((TaskApp.addTask ⟨"Write report", "Q1 summary", "2026-03-01"⟩ 5 "T1"
        (TaskApp.addTask ⟨"Buy milk", "", "2026-01-01"⟩ 5 "T0" [])).map
      (fun t => t.id)).Nodup :=
  ⟨rfl, by decide⟩

/-- **C2** (amended): for every valid input and every current collection,
`addTask` appends the new task at the end of the collection, with
`completed = false`, `createdAt` set to the creation time, and the
submitted field values present; every previously existing task is
unchanged; and the new id — the creation timestamp — is distinct from
every previously assigned id provided no two creations share a
millisecond timestamp (ids stay pairwise distinct under that proviso). -/
theorem c2_create_appends (input : TaskApp.TaskInput) (now : Nat) (nowIso : String)
    (tasks : List TaskApp.Task)
    (hfresh : now ∉ tasks.map (fun t => t.id))
    (hnodup : (tasks.map (fun t => t.id)).Nodup) :
    (TaskApp.addTask input now nowIso tasks).length = tasks.length + 1 ∧
    (TaskApp.addTask input now nowIso tasks).take tasks.length = tasks ∧
    (TaskApp.addTask input now nowIso tasks).getLast? =
      some ⟨now, input.title, input.description, input.dueDate, false, nowIso⟩ ∧
    ((TaskApp.addTask input now nowIso tasks).map (fun t => t.id)).Nodup := by
  refine ⟨by simp [TaskApp.addTask], ?_, ?_, ?_⟩
  · simp [TaskApp.addTask, List.take_left]
  · simp [TaskApp.addTask, List.getLast?_concat]
  · simp [TaskApp.addTask, List.nodup_append, hnodup, hfresh]

/-- Witness for the amended **C2** theorem at a concrete input: one
existing task with id `1`, a creation at millisecond `2`. -/
theorem c2_create_appends_witness :
    ((2 : Nat) ∉ ([⟨1, "Buy milk", "", "2026-01-01", false, "T0"⟩] :
        List TaskApp.Task).map (fun t => t.id)) ∧
    (([⟨1, "Buy milk", "", "2026-01-01", false, "T0"⟩] :
        List TaskApp.Task).map (fun t => t.id)).Nodup ∧
    ((TaskApp.addTask ⟨"Write report", "Q1 summary", "2026-03-01"⟩ 2 "T1"
        [⟨1, "Buy milk", "", "2026-01-01", false, "T0"⟩]).length = 1 + 1 ∧
      (TaskApp.addTask ⟨"Write report", "Q1 summary", "2026-03-01"⟩ 2 "T1"
        [⟨1, "Buy milk", "", "2026-01-01", false, "T0"⟩]).take 1 =
        [⟨1, "Buy milk", "", "2026-01-01", false, "T0"⟩] ∧
      (TaskApp.addTask ⟨"Write report", "Q1 summary", "2026-03-01"⟩ 2 "T1"
        [⟨1, "Buy milk", "", "2026-01-01", false, "T0"⟩]).getLast? =
        some ⟨2, "Write report", "Q1 summary", "2026-03-01", false, "T1"⟩ ∧
      ((TaskApp.addTask ⟨"Write report", "Q1 summary", "2026-03-01"⟩ 2 "T1"
        [⟨1, "Buy milk", "", "2026-01-01", false, "T0"⟩]).map (fun t => t.id)).Nodup) :=
  ⟨by decide, by decide,
    c2_create_appends ⟨"Write report", "Q1 summary", "2026-03-01"⟩ 2 "T1"
      [⟨1, "Buy milk", "", "2026-01-01", false, "T0"⟩] (by decide) (by decide)⟩

/-- **C3**: for every task in the collection, toggling its id twice in
succession restores the task's original `completed` value (for the
`unnamed/part_009` variant the whole collection is restored exactly),
and toggling once negates it; tasks with a different id keep their
`completed` value. Proved for both cited implementations:
`toggleComplete` (`unnamed/part_009`) and `handleToggleComplete`
(`unnamed/part_002`, which also stamps `updatedAt`). -/
theorem c3_toggle_involution :
    (∀ (id : Nat) (tasks : List TaskApp.Task),
      TaskApp.toggleComplete id (TaskApp.toggleComplete id tasks) = tasks) ∧
    (∀ (id : Nat) (tasks : List TaskApp.Task),
      (TaskApp.toggleComplete id tasks).map (fun t => t.completed) =
        tasks.map (fun t => if t.id = id then !t.completed else t.completed)) ∧
    (∀ (taskId n1 n2 : String) (tasks : List DashboardApp.Task),
      (DashboardApp.handleToggleComplete taskId n2
          (DashboardApp.handleToggleComplete taskId n1 tasks)).map
        (fun t => t.completed) = tasks.map (fun t => t.completed)) ∧
    (∀ (taskId nowIso : String) (tasks : List DashboardApp.Task),
      (DashboardApp.handleToggleComplete taskId nowIso tasks).map
        (fun t => t.completed) =
        tasks.map (fun t => if t.id = taskId then !t.completed else t.completed)) := by
  refine ⟨fun id tasks => ?_, fun id tasks => ?_, fun taskId n1 n2 tasks => ?_,
    fun taskId nowIso tasks => ?_⟩
  · induction tasks with
    | nil => rfl
    | cons t ts ih =>
      obtain ⟨a, b, c, d, e, f⟩ := t
      by_cases h : a = id <;> simp [TaskApp.toggleComplete, h] at ih ⊢ <;> simp_all
  · induction tasks with
    | nil => rfl
    | cons t ts ih =>
      obtain ⟨a, b, c, d, e, f⟩ := t
      by_cases h : a = id <;> simp [TaskApp.toggleComplete, h] at ih ⊢ <;> simp_all
  · induction tasks with
    | nil => rfl
    | cons t ts ih =>
      obtain ⟨a, b, c, d, e, f, g⟩ := t
      by_cases h : a = taskId <;>
        simp [DashboardApp.handleToggleComplete, h] at ih ⊢ <;> simp_all
  · induction tasks with
    | nil => rfl
    | cons t ts ih =>
      obtain ⟨a, b, c, d, e, f, g⟩ := t
      by_cases h : a = taskId <;>
        simp [DashboardApp.handleToggleComplete, h] at ih ⊢ <;> simp_all

namespace DashboardApp

theorem validateField_title (v : String) :
    (validateField "title" v = "") ↔
      (3 ≤ (jsTrim v).length ∧ (jsTrim v).length ≤ 100) := by
  simp only [validateField, reduceIte]
  split_ifs with h1 h2 h3 <;> simp_all

theorem validateField_dueDate (v : String) :
    (validateField "dueDate" v = "") ↔ v ≠ "" := by
  simp only [validateField, reduceIte]
  split_ifs <;> simp_all

theorem validateField_description (v : String) :
    (validateField "description" v = "") ↔ v.length ≤ 500 := by
  simp only [validateField, reduceIte]
  split_ifs <;> simp_all

theorem validateForm_eq (fd : FormData) :
    validateForm fd =
      (if validateField "title" fd.title = "" then []
        else [("title", validateField "title" fd.title)]) ++
      (if validateField "description" fd.description = "" then []
        else [("description", validateField "description" fd.description)]) ++
      (if validateField "dueDate" fd.dueDate = "" then []
        else [("dueDate", validateField "dueDate" fd.dueDate)]) := by
  unfold validateForm
  simp only [List.foldl_cons, List.foldl_nil, formGet, reduceIte]
  split_ifs <;> simp_all

end DashboardApp

/-- **C5**: validation (the `TaskForm` of the main app, `unnamed/part_005`)
accepts an input exactly when the trimmed title length is in `[3, 100]`,
the due date is present (non-empty), and the — optional — description
has length at most 500; acceptance means `validateForm` reports no
error. In particular an input with a valid title and due date and an
empty description is accepted (see the witness). -/
theorem c5_validation_iff (fd : DashboardApp.FormData) :
    DashboardApp.validateForm fd = [] ↔
      (3 ≤ (jsTrim fd.title).length ∧ (jsTrim fd.title).length ≤ 100 ∧
        fd.dueDate ≠ "" ∧ fd.description.length ≤ 500) := by
  rw [DashboardApp.validateForm_eq]
  simp only [List.append_eq_nil]
  split_ifs <;>
    simp_all [DashboardApp.validateField_title, DashboardApp.validateField_dueDate,
      DashboardApp.validateField_description]

/-- Witness for **C5**: the valid input of the spec's scenario A, with an
empty description, is accepted; an input with a two-character title is
not. -/
theorem c5_validation_iff_witness :
    DashboardApp.validateForm ⟨"Write report", "", "2026-03-01"⟩ = [] ∧
    ¬ DashboardApp.validateForm ⟨"ab", "x", "2026-01-01"⟩ = [] :=
  ⟨(c5_validation_iff ⟨"Write report", "", "2026-03-01"⟩).mpr (by decide),
    fun h => by
      have := (c5_validation_iff ⟨"ab", "x", "2026-01-01"⟩).mp h
      revert this
      decide⟩

/-- **C4**: on an invalid create/update input, validation returns an
error object mapping every failing field (not only the first) to a
reason — a field appears among the error keys exactly when its own
constraint fails — and the submission path leaves the task collection
exactly unchanged. Proved for both cited validators: `validateForm` of
the main `TaskForm` (`unnamed/part_005`, with its `handleSubmit`
pipeline) and `validate` of the duplicate sample form in
`src/setupTests.js` (whose own constraints also require a description). -/
theorem c4_validation_all_errors (fd : DashboardApp.FormData) :
    (("title" ∈ (DashboardApp.validateForm fd).map Prod.fst) ↔
      ¬ (3 ≤ (jsTrim fd.title).length ∧ (jsTrim fd.title).length ≤ 100)) ∧
    (("description" ∈ (DashboardApp.validateForm fd).map Prod.fst) ↔
      500 < fd.description.length) ∧
    (("dueDate" ∈ (DashboardApp.validateForm fd).map Prod.fst) ↔ fd.dueDate = "") ∧
    (∀ (editing : Option String) (newId nowIso : String)
        (tasks : List DashboardApp.Task),
      DashboardApp.validateForm fd ≠ [] →
        DashboardApp.submitForm fd editing newId nowIso tasks = tasks) ∧
    (("title" ∈ (SetupTests.validate fd).map Prod.fst) ↔ jsTrim fd.title = "") ∧
    (("description" ∈ (SetupTests.validate fd).map Prod.fst) ↔
      jsTrim fd.description = "") ∧
    (("dueDate" ∈ (SetupTests.validate fd).map Prod.fst) ↔ fd.dueDate = "") := by
  refine ⟨?_, ?_, ?_, ?_, ?_, ?_, ?_⟩
  · rw [DashboardApp.validateForm_eq, ← DashboardApp.validateField_title]
    split_ifs <;> simp_all
  · rw [DashboardApp.validateForm_eq,
      show (500 < fd.description.length) ↔
        ¬ (DashboardApp.validateField "description" fd.description = "") from by
          rw [DashboardApp.validateField_description]; omega]
    split_ifs <;> simp_all
  · rw [DashboardApp.validateForm_eq,
      show (fd.dueDate = "") ↔
        ¬ (DashboardApp.validateField "dueDate" fd.dueDate = "") from by
          rw [DashboardApp.validateField_dueDate]; simp]
    split_ifs <;> simp_all
  · intro editing newId nowIso tasks h
    unfold DashboardApp.submitForm
    rw [if_neg (by simpa [List.length_eq_zero] using h)]
  · unfold SetupTests.validate
    split_ifs <;> simp_all
  · unfold SetupTests.validate
    split_ifs <;> simp_all
  · unfold SetupTests.validate
    split_ifs <;> simp_all

set_option maxRecDepth 8000 in
/-- Witness for **C4**: the input with a two-character title, an
overlong description and a missing due date (scenario C extended) has
all three fields among the reported error keys, and submitting it in
add mode or edit mode leaves a sample collection unchanged. -/
theorem c4_validation_all_errors_witness :
    ("title" ∈ (DashboardApp.validateForm
        ⟨"ab", String.mk (List.replicate 501 'x'), ""⟩).map Prod.fst) ∧
    ("description" ∈ (DashboardApp.validateForm
        ⟨"ab", String.mk (List.replicate 501 'x'), ""⟩).map Prod.fst) ∧
    ("dueDate" ∈ (DashboardApp.validateForm
        ⟨"ab", String.mk (List.replicate 501 'x'), ""⟩).map Prod.fst) ∧
    DashboardApp.validateForm ⟨"ab", String.mk (List.replicate 501 'x'), ""⟩ ≠ [] ∧
    DashboardApp.submitForm ⟨"ab", String.mk (List.replicate 501 'x'), ""⟩ none
      "id9" "T9" [⟨"a", "Old", "", "2026-01-01", false, "T0", none⟩] =
      [⟨"a", "Old", "", "2026-01-01", false, "T0", none⟩] := by
  have h := c4_validation_all_errors ⟨"ab", String.mk (List.replicate 501 'x'), ""⟩
  have hne : DashboardApp.validateForm
      ⟨"ab", String.mk (List.replicate 501 'x'), ""⟩ ≠ [] := by decide
  exact ⟨h.1.mpr (by decide), h.2.1.mpr (by decide), h.2.2.1.mpr (by decide), hne,
    h.2.2.2.1 none "id9" "T9" [⟨"a", "Old", "", "2026-01-01", false, "T0", none⟩] hne⟩

/-- **C6** counterexample: the claim says an update referencing an id
not present in the collection fails with `NotFoundError`. No
`NotFoundError` exists anywhere in the code: `handleEditTask`
(`unnamed/part_002`) maps over the collection, matches nothing, and
returns normally with the collection unchanged. Concretely, editing id
`"zzz"` in a one-task collection yields the same collection as a normal
value, not an error. -/
theorem c6_counterexample :
    DashboardApp.handleEditTask "zzz" ⟨"New title", "New desc", "2026-05-05"⟩ "T9"
        [⟨"a", "Old", "", "2026-01-01", false, "T0", none⟩] =
      [⟨"a", "Old", "", "2026-01-01", false, "T0", none⟩] := by decide

/-- **C6** (amended): for every id and valid update input, the update
operation preserves every task's `id`, `completed` flag and `createdAt`
timestamp, sets the matched task's fields to the submitted values and
its `updatedAt` to the update time, and leaves every task with a
different id exactly unchanged (positionwise); for an id not present in
the collection it returns normally with the collection exactly
unchanged — no `NotFoundError` is produced (the operation's result type
has no error case). -/
theorem c6_update_frame (editingId : String) (d : DashboardApp.FormData)
    (nowIso : String) (tasks : List DashboardApp.Task) :
    ((DashboardApp.handleEditTask editingId d nowIso tasks).map (fun t => t.id) =
      tasks.map (fun t => t.id)) ∧
    ((DashboardApp.handleEditTask editingId d nowIso tasks).map (fun t => t.completed) =
      tasks.map (fun t => t.completed)) ∧
    ((DashboardApp.handleEditTask editingId d nowIso tasks).map (fun t => t.createdAt) =
      tasks.map (fun t => t.createdAt)) ∧
    ((DashboardApp.handleEditTask editingId d nowIso tasks).map
        (fun t => if t.id = editingId then none else some t) =
      tasks.map (fun t => if t.id = editingId then none else some t)) ∧
    (∀ t ∈ DashboardApp.handleEditTask editingId d nowIso tasks,
      t.id = editingId →
        t.title = d.title ∧ t.description = d.description ∧
        t.dueDate = d.dueDate ∧ t.updatedAt = some nowIso) ∧
    (editingId ∉ tasks.map (fun t => t.id) →
      DashboardApp.handleEditTask editingId d nowIso tasks = tasks) := by
  refine ⟨?_, ?_, ?_, ?_, ?_, ?_⟩
  · induction tasks with
    | nil => rfl
    | cons t ts ih =>
      by_cases h : t.id = editingId <;>
        simp [DashboardApp.handleEditTask, h] at ih ⊢ <;> exact ih
  · induction tasks with
    | nil => rfl
    | cons t ts ih =>
      by_cases h : t.id = editingId <;>
        simp [DashboardApp.handleEditTask, h] at ih ⊢ <;> exact ih
  · induction tasks with
    | nil => rfl
    | cons t ts ih =>
      by_cases h : t.id = editingId <;>
        simp [DashboardApp.handleEditTask, h] at ih ⊢ <;> exact ih
  · induction tasks with
    | nil => rfl
    | cons t ts ih =>
      by_cases h : t.id = editingId <;>
        simp [DashboardApp.handleEditTask, h] at ih ⊢ <;> exact ih
  · intro t ht hid
    simp only [DashboardApp.handleEditTask, List.mem_map] at ht
    obtain ⟨u, hu, rfl⟩ := ht
    by_cases h : u.id = editingId
    · simp [h]
    · simp only [if_neg h] at hid
      exact absurd hid h
  · intro habs
    induction tasks with
    | nil => rfl
    | cons t ts ih =>
      simp only [List.map_cons, List.mem_cons, not_or] at habs
      have h1 : ¬ t.id = editingId := fun hh => habs.1 hh.symm
      have hts : DashboardApp.handleEditTask editingId d nowIso ts = ts :=
        ih (by simpa using habs.2)
      simp only [DashboardApp.handleEditTask, List.map_cons, if_neg h1] at hts ⊢
      rw [hts]

/-- Witness for the amended **C6** theorem: editing id `"a"` in a
two-task collection updates that task's fields and `updatedAt`, and
editing the absent id `"zzz"` returns the collection unchanged. -/
theorem c6_update_frame_witness :
    ((⟨"a", "New", "ND", "2026-05-05", false, "T0", some "T9"⟩ : DashboardApp.Task) ∈
      DashboardApp.handleEditTask "a" ⟨"New", "ND", "2026-05-05"⟩ "T9"
        [⟨"a", "Old", "", "2026-01-01", false, "T0", none⟩,
          ⟨"b", "Keep", "", "2026-02-02", true, "T1", none⟩]) ∧
    ((⟨"a", "New", "ND", "2026-05-05", false, "T0", some "T9"⟩ : DashboardApp.Task).title =
        "New" ∧
      (⟨"a", "New", "ND", "2026-05-05", false, "T0", some "T9"⟩ : DashboardApp.Task).description =
        "ND" ∧
      (⟨"a", "New", "ND", "2026-05-05", false, "T0", some "T9"⟩ : DashboardApp.Task).dueDate =
        "2026-05-05" ∧
      (⟨"a", "New", "ND", "2026-05-05", false, "T0", some "T9"⟩ : DashboardApp.Task).updatedAt =
        some "T9") ∧
    ("zzz" ∉ ([⟨"a", "Old", "", "2026-01-01", false, "T0", none⟩,
        ⟨"b", "Keep", "", "2026-02-02", true, "T1", none⟩] :
        List DashboardApp.Task).map (fun t => t.id)) ∧
    DashboardApp.handleEditTask "zzz" ⟨"New", "ND", "2026-05-05"⟩ "T9"
        [⟨"a", "Old", "", "2026-01-01", false, "T0", none⟩,
          ⟨"b", "Keep", "", "2026-02-02", true, "T1", none⟩] =
      [⟨"a", "Old", "", "2026-01-01", false, "T0", none⟩,
        ⟨"b", "Keep", "", "2026-02-02", true, "T1", none⟩] :=
  ⟨by decide,
    (c6_update_frame "a" ⟨"New", "ND", "2026-05-05"⟩ "T9"
        [⟨"a", "Old", "", "2026-01-01", false, "T0", none⟩,
          ⟨"b", "Keep", "", "2026-02-02", true, "T1", none⟩]).2.2.2.2.1
      ⟨"a", "New", "ND", "2026-05-05", false, "T0", some "T9"⟩ (by decide) (by decide),
    by decide,
    (c6_update_frame "zzz" ⟨"New", "ND", "2026-05-05"⟩ "T9"
        [⟨"a", "Old", "", "2026-01-01", false, "T0", none⟩,
          ⟨"b", "Keep", "", "2026-02-02", true, "T1", none⟩]).2.2.2.2.2 (by decide)⟩

namespace TaskApp

theorem toggleComplete_of_not_mem (id : Nat) (tasks : List Task)
    (h : id ∉ tasks.map (fun t => t.id)) : toggleComplete id tasks = tasks := by
  have hid : ∀ t ∈ tasks, ¬ t.id = id := by
    intro t ht hh
    exact h (List.mem_map.mpr ⟨t, ht, hh⟩)
  unfold toggleComplete
  calc tasks.map (fun task =>
        if task.id = id then { task with completed := !task.completed } else task) =
      tasks.map (fun t => t) :=
        List.map_congr_left (fun t ht => by simp [hid t ht])
    _ = tasks := List.map_id' tasks

theorem updateTask_of_not_mem (u : Task) (tasks : List Task)
    (h : u.id ∉ tasks.map (fun t => t.id)) : updateTask u tasks = tasks := by
  have hid : ∀ t ∈ tasks, ¬ t.id = u.id := by
    intro t ht hh
    exact h (List.mem_map.mpr ⟨t, ht, hh⟩)
  unfold updateTask
  calc tasks.map (fun task =>
        if task.id = u.id then
          { task with
              id := u.id
              title := u.title
              description := u.description
              dueDate := u.dueDate
              completed := u.completed
              createdAt := u.createdAt }
        else task) =
      tasks.map (fun t => t) :=
        List.map_congr_left (fun t ht => by simp [hid t ht])
    _ = tasks := List.map_id' tasks

theorem deleteTask_of_not_mem (confirmed : Bool) (id : Nat) (tasks : List Task)
    (h : id ∉ tasks.map (fun t => t.id)) : deleteTask confirmed id tasks = tasks := by
  have hid : ∀ t ∈ tasks, ¬ t.id = id := by
    intro t ht hh
    exact h (List.mem_map.mpr ⟨t, ht, hh⟩)
  unfold deleteTask
  cases confirmed
  · rfl
  · simp only [if_pos]
    exact List.filter_eq_self.mpr (fun t ht => by simpa using hid t ht)

theorem not_mem_map_id_deleteTask (id : Nat) (tasks : List Task) :
    id ∉ (deleteTask true id tasks).map (fun t => t.id) := by
  unfold deleteTask
  simp only [if_pos]
  intro hmem
  simp only [List.mem_map, List.mem_filter] at hmem
  obtain ⟨t, ⟨_, hkeep⟩, hid⟩ := hmem
  simp [hid] at hkeep

end TaskApp

namespace DashboardApp

theorem handleDeleteTask_of_not_mem (taskId : String) (tasks : List Task)
    (h : taskId ∉ tasks.map (fun t => t.id)) : handleDeleteTask taskId tasks = tasks := by
  have hid : ∀ t ∈ tasks, ¬ t.id = taskId := by
    intro t ht hh
    exact h (List.mem_map.mpr ⟨t, ht, hh⟩)
  unfold handleDeleteTask
  exact List.filter_eq_self.mpr (fun t ht => by simpa using hid t ht)

end DashboardApp

/-- **C10**: for every collection and every id not present in it, the
update, toggle-completion and delete operations return normally and
leave the collection exactly unchanged — a silent no-op. Proved for the
cited `toggleComplete`, `updateTask` and `deleteTask`
(`unnamed/part_009`, the last for either answer to its confirm prompt)
and `handleDeleteTask` (`unnamed/part_002`). -/
theorem c10_missing_id_noop (id : Nat) (confirmed : Bool) (u : TaskApp.Task)
    (tasks : List TaskApp.Task) (taskId : String) (tasks2 : List DashboardApp.Task)
    (h : id ∉ tasks.map (fun t => t.id)) (hu : u.id = id)
    (h2 : taskId ∉ tasks2.map (fun t => t.id)) :
    TaskApp.toggleComplete id tasks = tasks ∧
    TaskApp.updateTask u tasks = tasks ∧
    TaskApp.deleteTask confirmed id tasks = tasks ∧
    DashboardApp.handleDeleteTask taskId tasks2 = tasks2 :=
  ⟨TaskApp.toggleComplete_of_not_mem id tasks h,
    TaskApp.updateTask_of_not_mem u tasks (hu ▸ h),
    TaskApp.deleteTask_of_not_mem confirmed id tasks h,
    DashboardApp.handleDeleteTask_of_not_mem taskId tasks2 h2⟩

/-- Witness for **C10**: in concrete one-task collections, operations
referencing the absent ids `2` and `"y"` are no-ops. -/
theorem c10_missing_id_noop_witness :
    ((2 : Nat) ∉ ([⟨1, "t", "", "2026-01-01", false, "T0"⟩] :
      List TaskApp.Task).map (fun t => t.id)) ∧
    (⟨2, "u", "", "2026-01-02", true, "T1"⟩ : TaskApp.Task).id = 2 ∧
    ("y" ∉ ([⟨"x", "t", "", "2026-01-01", false, "T0", none⟩] :
      List DashboardApp.Task).map (fun t => t.id)) ∧
    (TaskApp.toggleComplete 2 [⟨1, "t", "", "2026-01-01", false, "T0"⟩] =
        [⟨1, "t", "", "2026-01-01", false, "T0"⟩] ∧
      TaskApp.updateTask ⟨2, "u", "", "2026-01-02", true, "T1"⟩
          [⟨1, "t", "", "2026-01-01", false, "T0"⟩] =
        [⟨1, "t", "", "2026-01-01", false, "T0"⟩] ∧
      TaskApp.deleteTask true 2 [⟨1, "t", "", "2026-01-01", false, "T0"⟩] =
        [⟨1, "t", "", "2026-01-01", false, "T0"⟩] ∧
      DashboardApp.handleDeleteTask "y" [⟨"x", "t", "", "2026-01-01", false, "T0", none⟩] =
        [⟨"x", "t", "", "2026-01-01", false, "T0", none⟩]) :=
  ⟨by decide, by decide, by decide,
    c10_missing_id_noop 2 true ⟨2, "u", "", "2026-01-02", true, "T1"⟩
      [⟨1, "t", "", "2026-01-01", false, "T0"⟩] "y"
      [⟨"x", "t", "", "2026-01-01", false, "T0", none⟩]
      (by decide) (by decide) (by decide)⟩

/-- **C7** counterexample: the claim says any operation referencing a
deleted id returns `NotFoundError`. After deleting the only task (id
`1`, confirm answered yes), toggling id `1` returns the — unchanged —
empty collection as a normal value; no `NotFoundError` exists anywhere
in the code, the operations' result type has no error case. -/
theorem c7_counterexample :
    TaskApp.deleteTask true 1
        [⟨1, "Write report", "Q1 summary", "2026-03-01", false, "T0"⟩] = [] ∧
    TaskApp.toggleComplete 1 (TaskApp.deleteTask true 1
        [⟨1, "Write report", "Q1 summary", "2026-03-01", false, "T0"⟩]) = [] ∧
    TaskApp.updateTask ⟨1, "X", "Y", "2026-04-04", true, "T1"⟩
        (TaskApp.deleteTask true 1
          [⟨1, "Write report", "Q1 summary", "2026-03-01", false, "T0"⟩]) = [] := by
  decide

/-- **C7** (amended): after a successful delete of an id, every
subsequent operation referencing that id — update, toggle-completion or
delete — returns normally and leaves the collection exactly unchanged
(a silent no-op); no `NotFoundError` is returned. -/
theorem c7_after_delete_noop (id : Nat) (tasks : List TaskApp.Task)
    (u : TaskApp.Task) (confirmed : Bool) (hu : u.id = id) :
    TaskApp.toggleComplete id (TaskApp.deleteTask true id tasks) =
      TaskApp.deleteTask true id tasks ∧
    TaskApp.updateTask u (TaskApp.deleteTask true id tasks) =
      TaskApp.deleteTask true id tasks ∧
    TaskApp.deleteTask confirmed id (TaskApp.deleteTask true id tasks) =
      TaskApp.deleteTask true id tasks := by
  have h := TaskApp.not_mem_map_id_deleteTask id tasks
  exact ⟨TaskApp.toggleComplete_of_not_mem id _ h,
    TaskApp.updateTask_of_not_mem u _ (hu ▸ h),
    TaskApp.deleteTask_of_not_mem confirmed id _ h⟩

/-- Witness for the amended **C7** theorem: delete the only task of a
concrete collection, then toggle, update and delete that id again — the
collection (now empty) is unchanged each time. -/
theorem c7_after_delete_noop_witness :
    (⟨2, "X", "Y", "2026-04-04", true, "T1"⟩ : TaskApp.Task).id = 2 ∧
    (TaskApp.toggleComplete 2 (TaskApp.deleteTask true 2
        [⟨2, "Report", "", "2026-03-01", false, "T0"⟩]) =
      TaskApp.deleteTask true 2 [⟨2, "Report", "", "2026-03-01", false, "T0"⟩] ∧
    TaskApp.updateTask ⟨2, "X", "Y", "2026-04-04", true, "T1"⟩
        (TaskApp.deleteTask true 2 [⟨2, "Report", "", "2026-03-01", false, "T0"⟩]) =
      TaskApp.deleteTask true 2 [⟨2, "Report", "", "2026-03-01", false, "T0"⟩] ∧
    TaskApp.deleteTask false 2 (TaskApp.deleteTask true 2
        [⟨2, "Report", "", "2026-03-01", false, "T0"⟩]) =
      TaskApp.deleteTask true 2 [⟨2, "Report", "", "2026-03-01", false, "T0"⟩]) :=
  ⟨by decide,
    c7_after_delete_noop 2 [⟨2, "Report", "", "2026-03-01", false, "T0"⟩]
      ⟨2, "X", "Y", "2026-04-04", true, "T1"⟩ false (by decide)⟩

/-- **C8** counterexample: the claim says initialization completes
without raising any error and yields the empty collection for every
persisted byte string that does not deserialize. The load effect
(`unnamed/part_009`, lines 17–22) calls `JSON.parse` with no
`try`/`catch`; on the stored string `"###"` (not valid JSON) the parse
error propagates — initialization ends in a thrown error, not in the
empty collection. -/
theorem c8_counterexample :
    TaskApp.loadTasks (some "###") = Except.error "SyntaxError: JSON.parse" ∧
    TaskApp.loadTasks (some "###") ≠ Except.ok [] :=
  ⟨rfl, fun h => Except.noConfusion h⟩

/-- **C8** (amended): when the adapter holds no value, or holds the
empty (falsy) string, initialization yields the empty collection; but
when it holds a non-empty string that does not deserialize, the load
effect propagates the deserialization error (the model of the thrown
`SyntaxError`) instead of failing open with an empty collection. -/
theorem c8_load_failure (s : String) (hne : s ≠ "")
    (hbad : TaskApp.deserializeTasks s = none) :
    TaskApp.loadTasks none = Except.ok [] ∧
    TaskApp.loadTasks (some "") = Except.ok [] ∧
    TaskApp.loadTasks (some s) = Except.error "SyntaxError: JSON.parse" := by
  refine ⟨rfl, rfl, ?_⟩
  unfold TaskApp.loadTasks
  dsimp only
  rw [if_neg hne, hbad]

/-- Witness for the amended **C8** theorem at the malformed persisted
string `"###"`. -/
theorem c8_load_failure_witness :
    ("###" : String) ≠ "" ∧ TaskApp.deserializeTasks "###" = none ∧
    (TaskApp.loadTasks none = Except.ok [] ∧
      TaskApp.loadTasks (some "") = Except.ok [] ∧
      TaskApp.loadTasks (some "###") = Except.error "SyntaxError: JSON.parse") :=
  ⟨by decide, by decide, c8_load_failure "###" (by decide) (by decide)⟩

/-- **C9**: for every task collection and every state of the adapter,
serializing the collection, saving it under the `'tasks'` key, loading
it back and deserializing yields a collection equal to the original —
the same tasks, with the same field values, in the same order. -/
theorem c9_persistence_roundtrip (store : String → Option String)
    (tasks : List TaskApp.Task) :
    TaskApp.deserializeTasks (TaskApp.serializeTasks tasks) = some tasks ∧
    TaskApp.loadTasks (TaskApp.getItem "tasks"
        (TaskApp.setItem "tasks" (TaskApp.serializeTasks tasks) store)) =
      Except.ok tasks := by
  refine ⟨TaskApp.deserializeTasks_serializeTasks tasks, ?_⟩
  have hget : TaskApp.getItem "tasks" (TaskApp.setItem "tasks"
      (TaskApp.serializeTasks tasks) store) = some (TaskApp.serializeTasks tasks) := by
    unfold TaskApp.getItem TaskApp.setItem
    simp
  rw [hget]
  unfold TaskApp.loadTasks
  dsimp only
  rw [if_neg (TaskApp.serializeTasks_ne_empty tasks),
    TaskApp.deserializeTasks_serializeTasks]
